import Mathlib

/-!
Shallow embedding of `src/Python/src/Contribute_Checker/backup_engine.py`,
the backup-and-recovery engine of the repository.

Modelling choices:
* The on-disk state is an association list from path strings to file
  data (`FS`).  Directories are implicit (flat path namespace).
* gzip compression is modelled at the constructor level: a `.gz` file
  stores its uncompressed payload, and decompression recovers it.  The
  byte size of a gzip artifact is modelled as payload length plus a
  fixed 20-byte header/trailer overhead (real gzip adds a constant
  overhead and does not shrink the tiny incompressible payloads used
  here); only determinism of the size function matters to the claims.
* The MD5 fingerprint (`_get_file_hash`) is modelled by a deterministic
  stand-in digest: the engine only ever compares digests for equality,
  and every claim under study uses only determinism of the digest.
* Python's `json.loads` validity test is modelled on the fragment of
  JSON atoms (`null`, `true`, `false`, unsigned integers); the engine
  only observes whether parsing succeeds, and the model agrees with
  `json.loads` on every concrete content used in this development.
* Wall-clock time is a single integer `now` (seconds); both the
  `YYYYMMDD_HHMMSS` id component and the ISO `timestamp` field are
  rendered as `toString now`, which preserves the code's property that
  ids collide exactly when two backups share a creation second and that
  sorting the ISO strings sorts by creation time.
* The persisted `backup_index.json` mirror of the in-memory index is
  not modelled: `_save_backup_index` rewrites it from the in-memory
  history on every mutation and no claim under study depends on it.
* I/O is reliable: reads, writes and copies that the real code performs
  without a documented failure mode succeed in the model.  The failure
  modes that are modelled are exactly the ones the code branches on:
  missing files, gzip/text format mismatch, JSON parse failure, the
  `ZeroDivisionError` in the compression-ratio computation, and the
  `FileNotFoundError` of `os.makedirs("")`.
-/

/-- File contents on disk: a plain text file, or a gzip file whose
uncompressed payload is `s` (written by `gzip.open(..., "wb")` with the
UTF-8 bytes of `s`). -/
inductive FileData where
  | text (s : String)
  | gz (s : String)
  deriving DecidableEq, Repr

/-- The on-disk state: an association list from paths to file data. -/
abbrev FS := List (String × FileData)

/-- Look up the contents of a path (`open` / `os.path.exists`). -/
def fsGet : FS → String → Option FileData
  | [], _ => none
  | (q, d) :: rest, p => if q = p then some d else fsGet rest p

/-- Write a file, overwriting any existing entry at that path. -/
def fsSet : FS → String → FileData → FS
  | [], p, d => [(p, d)]
  | (q, e) :: rest, p, d =>
      if q = p then (p, d) :: rest else (q, e) :: fsSet rest p d

/-- Delete a path (`os.remove`). -/
def fsRemove : FS → String → FS
  | [], _ => []
  | (q, e) :: rest, p =>
      if q = p then fsRemove rest p else (q, e) :: fsRemove rest p

/-- Byte size of a stored file (`os.path.getsize`): a text file is its
character count (ASCII contents), a gzip file is its payload plus the
constant gzip header/trailer overhead. -/
def fdSize : FileData → Nat
  | FileData.text s => s.length
  | FileData.gz s => s.length + 20

/-- The raw byte content of a file as read in binary mode (`open(p, "rb")`);
a gzip file's raw bytes differ from its payload, which the magic-number
tag records. -/
def fileBytes : FileData → String
  | FileData.text s => s
  | FileData.gz s => "gzip:" ++ s

/-- Deterministic stand-in for the MD5 hex digest of a byte string.  The
engine compares digests only for equality, and the claims use only
determinism of the digest, so the digest function itself is immaterial. -/
def md5Hex (s : String) : String := "md5_" ++ s

/-- Models the success of Python's `json.loads` on the JSON-atom fragment
(`null`, `true`, `false`, unsigned integers without a leading zero,
surrounding whitespace allowed).  The engine only observes whether the
parse succeeds; this fragment agrees with `json.loads` on every content
used below.  Surrounding whitespace is stripped from the character
list. -/
def trimChars (l : List Char) : List Char :=
  ((l.dropWhile Char.isWhitespace).reverse.dropWhile Char.isWhitespace).reverse

/-- Continuation of `jsonOk` on the trimmed character list. -/
def jsonOkChars (t : List Char) : Bool :=
  t == ("null").data || t == ("true").data || t == ("false").data ||
    (!t.isEmpty && t.all Char.isDigit &&
      (t == ("0").data || t.head? != some '0'))

def jsonOk (s : String) : Bool := jsonOkChars (trimChars s.data)

/-- `os.path.join` for the non-degenerate paths the engine builds. -/
def pathJoin (a b : String) : String := a ++ "/" ++ b

/-- Whether `os.path.dirname p` is nonempty, i.e. whether the path has a
directory component.  `os.makedirs("", exist_ok=True)` raises
`FileNotFoundError`; any nonempty dirname is created successfully under
the reliable-I/O assumption. -/
def hasDirComponent (p : String) : Bool := p.data.contains '/'

/-- Name of the pre-restore safety copy
(`f"{restore_path}.pre_restore_{timestamp}.bak"`). -/
def safetyName (dest : String) (now : Int) : String :=
  dest ++ ".pre_restore_" ++ toString now ++ ".bak"

/-- One entry of the backup index (`backup_info` dict).  `stored_size`
models `file_size` (uncompressed) or `compressed_size` (compressed);
`compression_ratio` is present only for compressed backups; `based_on`
is present only after differential retagging. -/
structure BackupRecord where
  backup_id : String
  btype : String
  timestamp : Int
  description : String
  source_file : String
  file_hash : Option String
  original_size : Nat
  compressed : Bool
  stored_size : Nat
  compression_ratio : Option ℚ
  backup_file : String
  based_on : Option String
  deriving DecidableEq, Repr

/-- The engine state (`BackupEngine` instance attributes). -/
structure Engine where
  backup_dir : String
  data_file : String
  backup_history : List BackupRecord
  last_backup_hash : Option String
  deriving DecidableEq, Repr

/-- Result of the create operations: the success dict
(`backup_id`, full `backup_file` path, `size`, `compressed`), the
incremental skip dict, or an error dict. -/
inductive CreateResult where
  | ok (backup_id : String) (backup_file : String) (size : Nat) (compressed : Bool)
  | skipped (reason : String)
  | err (error : String)
  deriving DecidableEq, Repr

/-- Result of `verify_backup`.  Only `valid` carries `valid = True`;
`notFound` and `artifactMissing` return `success: False` without a
`valid` key, and `invalid` returns `valid: False`. -/
inductive VerifyResult where
  | notFound
  | artifactMissing
  | valid (backup_id : String) (file_size : Nat)
  | invalid (error : String)
  deriving DecidableEq, Repr

/-- Whether a verification result reports `valid = True`. -/
def VerifyResult.isValid : VerifyResult → Bool
  | VerifyResult.valid _ _ => true
  | _ => false

/-- Result of `restore_backup`. -/
inductive RestoreResult where
  | ok (backup_id : String) (restored_to : String)
  | err (error : String)
  deriving DecidableEq, Repr

/-- Whether a restore result reports failure (`success: False`). -/
def RestoreResult.isErr : RestoreResult → Bool
  | RestoreResult.ok _ _ => false
  | RestoreResult.err _ => true

/-- `BackupEngine._get_file_hash`: `None` when the path does not exist,
otherwise the digest of the file's raw bytes. -/
def getFileHash (fs : FS) (p : String) : Option String :=
  match fsGet fs p with
  | none => none
  | some fd => some (md5Hex (fileBytes fd))

/-- `BackupEngine.get_backup_info`: first index record with the given id. -/
def get_backup_info (eng : Engine) (bid : String) : Option BackupRecord :=
  eng.backup_history.find? (fun b => b.backup_id == bid)

/-- `BackupEngine.create_full_backup`.  Takes the wall-clock time `now`
and returns the result dict together with the updated engine and disk
state.  Follows the source line by line: missing source is an error
before any write; for a compressed backup the artifact is written before
the ratio computation, so a `ZeroDivisionError` on an empty source
leaves the artifact on disk but appends no record. -/
def create_full_backup (eng : Engine) (fs : FS) (now : Int)
    (dataFile : Option String) (compress : Bool) (description : String) :
    CreateResult × Engine × FS :=
  let df := dataFile.getD eng.data_file
  match fsGet fs df with
  | none => (CreateResult.err ("Data file not found: " ++ df), eng, fs)
  | some (FileData.gz _) =>
      -- `open(data_file, "r", encoding="utf-8")` on gzip bytes raises
      -- a decode error, caught by the `except` clause.
      (CreateResult.err ("read error"), eng, fs)
  | some (FileData.text data) =>
      let backup_name := "backup_full_" ++ toString now
      let file_hash := some (md5Hex (fileBytes (FileData.text data)))
      if compress then
        let fname := backup_name ++ ".json.gz"
        let bpath := pathJoin eng.backup_dir fname
        let fs1 := fsSet fs bpath (FileData.gz data)
        let csize := fdSize (FileData.gz data)
        if data.length = 0 then
          -- `1 - compressed_size / original_size` raises
          -- ZeroDivisionError after the artifact write.
          (CreateResult.err ("division by zero"), eng, fs1)
        else
          let ratio : ℚ := (1 - (csize : ℚ) / (data.length : ℚ)) * 100
          let r : BackupRecord :=
            { backup_id := backup_name, btype := "full", timestamp := now,
              description := description, source_file := df,
              file_hash := file_hash, original_size := data.length,
              compressed := true, stored_size := csize,
              compression_ratio := some ratio, backup_file := fname,
              based_on := none }
          (CreateResult.ok backup_name bpath csize true,
           { eng with backup_history := eng.backup_history ++ [r],
                      last_backup_hash := file_hash }, fs1)
      else
        let fname := backup_name ++ ".json"
        let bpath := pathJoin eng.backup_dir fname
        let fs1 := fsSet fs bpath (FileData.text data)
        let fsize := fdSize (FileData.text data)
        let r : BackupRecord :=
          { backup_id := backup_name, btype := "full", timestamp := now,
            description := description, source_file := df,
            file_hash := file_hash, original_size := data.length,
            compressed := false, stored_size := fsize,
            compression_ratio := none, backup_file := fname,
            based_on := none }
        (CreateResult.ok backup_name bpath fsize false,
         { eng with backup_history := eng.backup_history ++ [r],
                    last_backup_hash := file_hash }, fs1)

/-- The retag loop of `create_incremental_backup`: rewrite the `type` of
the first history record whose `backup_id` matches. -/
def retagIncremental : List BackupRecord → String → List BackupRecord
  | [], _ => []
  | r :: rest, bid =>
      if r.backup_id = bid then { r with btype := "incremental" } :: rest
      else r :: retagIncremental rest bid

/-- The retag loop of `create_differential_backup`: rewrite the `type`
and `based_on` of the first history record whose `backup_id` matches. -/
def retagDifferential : List BackupRecord → String → String → List BackupRecord
  | [], _, _ => []
  | r :: rest, bid, base =>
      if r.backup_id = bid then
        { r with btype := "differential", based_on := some base } :: rest
      else r :: retagDifferential rest bid base

/-- `BackupEngine.create_incremental_backup`: skip with no state change
when the current fingerprint equals `last_backup_hash`, otherwise run
the full path and retag the new record. -/
def create_incremental_backup (eng : Engine) (fs : FS) (now : Int)
    (dataFile : Option String) (compress : Bool) (description : String) :
    CreateResult × Engine × FS :=
  let df := dataFile.getD eng.data_file
  let current_hash := getFileHash fs df
  if current_hash = eng.last_backup_hash then
    (CreateResult.skipped ("No changes detected since last backup"), eng, fs)
  else
    match create_full_backup eng fs now dataFile compress description with
    | (CreateResult.ok bid bf sz c, eng1, fs1) =>
        (CreateResult.ok bid bf sz c,
         { eng1 with backup_history := retagIncremental eng1.backup_history bid },
         fs1)
    | other => other

/-- The backward scan of `create_differential_backup` for the most
recent record with `type = "full"`. -/
def findLastFull (hist : List BackupRecord) : Option BackupRecord :=
  hist.reverse.find? (fun b => b.btype == "full")

/-- `BackupEngine.create_differential_backup`: fall back to the full
path when no full record exists, otherwise run the full path and retag
the new record with `based_on` pointing at the most recent full record. -/
def create_differential_backup (eng : Engine) (fs : FS) (now : Int)
    (dataFile : Option String) (compress : Bool) (description : String) :
    CreateResult × Engine × FS :=
  match findLastFull eng.backup_history with
  | none => create_full_backup eng fs now dataFile compress description
  | some lastFull =>
      match create_full_backup eng fs now dataFile compress description with
      | (CreateResult.ok bid bf sz c, eng1, fs1) =>
          (CreateResult.ok bid bf sz c,
           { eng1 with backup_history :=
               retagDifferential eng1.backup_history bid lastFull.backup_id },
           fs1)
      | other => other

/-- `BackupEngine.verify_backup`: resolve the record, check the artifact
exists, read (decompressing if the record says so) and JSON-parse it.
Performs no write; the unchanged engine and disk state are returned to
make that observable. -/
def verify_backup (eng : Engine) (fs : FS) (bid : String) :
    VerifyResult × Engine × FS :=
  match get_backup_info eng bid with
  | none => (VerifyResult.notFound, eng, fs)
  | some info =>
      let bpath := pathJoin eng.backup_dir info.backup_file
      match fsGet fs bpath with
      | none => (VerifyResult.artifactMissing, eng, fs)
      | some fd =>
          if info.compressed then
            match fd with
            | FileData.gz s =>
                if jsonOk s then (VerifyResult.valid bid (fdSize fd), eng, fs)
                else (VerifyResult.invalid ("parse failure"), eng, fs)
            | FileData.text _ =>
                -- `gzip.open` on a plain text file raises BadGzipFile.
                (VerifyResult.invalid ("not a gzip file"), eng, fs)
          else
            match fd with
            | FileData.text s =>
                if jsonOk s then (VerifyResult.valid bid (fdSize fd), eng, fs)
                else (VerifyResult.invalid ("parse failure"), eng, fs)
            | FileData.gz _ =>
                -- text-mode read of gzip bytes raises a decode error.
                (VerifyResult.invalid ("decode error"), eng, fs)

/-- The destination path a `restore_backup` call resolves to: the
explicit `restore_path` if given, else the record's `source_file`;
`none` when the backup id is unknown. -/
def restoreDest (eng : Engine) (bid : String) (restorePath : Option String) :
    Option String :=
  (get_backup_info eng bid).map (fun info => restorePath.getD info.source_file)

/-- The safety-copy step of `restore_backup`: when requested and the
destination exists, copy it to the timestamped `.bak` sibling
(`shutil.copy2`) before any destructive write. -/
def preRestoreFS (fs : FS) (now : Int) (dest : String) (flag : Bool) : FS :=
  match flag, fsGet fs dest with
  | true, some d => fsSet fs (safetyName dest now) d
  | _, _ => fs

/-- The artifact-read step of `restore_backup`: decompress when the
record says the artifact is compressed (`gzip.open` on a plain file, or
a text-mode read of gzip bytes, raises and yields no data). -/
def readArtifact (compressed : Bool) (fd : FileData) : Option String :=
  if compressed then
    match fd with
    | FileData.gz s => some s
    | FileData.text _ => none
  else
    match fd with
    | FileData.text s => some s
    | FileData.gz _ => none

/-- `BackupEngine.restore_backup`.  Order of effects follows the source:
record lookup, artifact existence check, safety copy of an existing
destination, artifact read (with decompression per the record), JSON
validation, parent-directory creation (`os.makedirs` on an empty
dirname raises), destination write. -/
def restore_backup (eng : Engine) (fs : FS) (now : Int) (bid : String)
    (restorePath : Option String) (createRestoreBackup : Bool) :
    RestoreResult × Engine × FS :=
  match get_backup_info eng bid with
  | none => (RestoreResult.err ("Backup not found"), eng, fs)
  | some info =>
      let bpath := pathJoin eng.backup_dir info.backup_file
      match fsGet fs bpath with
      | none => (RestoreResult.err ("Backup file not found"), eng, fs)
      | some _ =>
          let dest := restorePath.getD info.source_file
          let fs1 := preRestoreFS fs now dest createRestoreBackup
          -- the artifact is read after the safety copy
          match fsGet fs1 bpath with
          | none => (RestoreResult.err ("Restore failed: read"), eng, fs1)
          | some fd =>
              match readArtifact info.compressed fd with
              | none => (RestoreResult.err ("Restore failed: read"), eng, fs1)
              | some data =>
                  if jsonOk data then
                    if hasDirComponent dest then
                      (RestoreResult.ok bid dest, eng,
                       fsSet fs1 dest (FileData.text data))
                    else
                      (RestoreResult.err ("Restore failed: makedirs"), eng, fs1)
                  else
                    (RestoreResult.err ("Restore failed: invalid json"), eng, fs1)

/-- Stable insertion into a timestamp-descending list, placing the new
element before later elements with an equal timestamp. -/
def insertDesc (b : BackupRecord) : List BackupRecord → List BackupRecord
  | [] => [b]
  | c :: rest =>
      if b.timestamp < c.timestamp then c :: insertDesc b rest
      else b :: c :: rest

/-- `sorted(history, key=lambda x: x["timestamp"], reverse=True)`:
stable sort by timestamp, newest first (Python's sort is stable, and
the ISO timestamp strings order like the times they render). -/
def sortDesc : List BackupRecord → List BackupRecord
  | [] => []
  | b :: rest => insertDesc b (sortDesc rest)

/-- The retention loop of `cleanup_old_backups` over the sorted list:
position `i` is kept when `i < keep_count` or the record's timestamp is
at or after the cutoff; otherwise it goes to the removal list.  Returns
`(kept, to_remove)`, each in scan order. -/
def cleanupLoop (keep_count : Nat) (cutoff : Int) :
    Nat → List BackupRecord → List BackupRecord × List BackupRecord
  | _, [] => ([], [])
  | i, b :: rest =>
      let p := cleanupLoop keep_count cutoff (i + 1) rest
      if i < keep_count then (b :: p.1, p.2)
      else if cutoff ≤ b.timestamp then (b :: p.1, p.2)
      else (p.1, b :: p.2)

/-- The artifact-deletion loop of `cleanup_old_backups`: remove each
scheduled record's artifact, counting only files that existed. -/
def removeArtifacts (dir : String) : FS → List BackupRecord → FS × Nat
  | fs, [] => (fs, 0)
  | fs, b :: rest =>
      let p := pathJoin dir b.backup_file
      if (fsGet fs p).isSome then
        let q := removeArtifacts dir (fsRemove fs p) rest
        (q.1, q.2 + 1)
      else removeArtifacts dir fs rest

/-- Seconds per day (`timedelta(days=keep_days)`). -/
def daySeconds : Int := 86400

/-- `BackupEngine.cleanup_old_backups`: empty history returns
immediately; otherwise sort newest-first, split by the retention
policy, delete the scheduled artifacts, and replace the history with
the kept records.  Returns `removed_count` with the new state. -/
def cleanup_old_backups (eng : Engine) (fs : FS) (now : Int)
    (keep_count : Nat) (keep_days : Nat) : Nat × Engine × FS :=
  match eng.backup_history with
  | [] => (0, eng, fs)
  | _ :: _ =>
      let sorted := sortDesc eng.backup_history
      let cutoff : Int := now - (keep_days : Int) * daySeconds
      let split := cleanupLoop keep_count cutoff 0 sorted
      let rem := removeArtifacts eng.backup_dir fs split.2
      (rem.2, { eng with backup_history := split.1 }, rem.1)

/-- Spec-side retention policy, written from the spec's words: a record
is retained exactly when its rank among the most-recent (its position
in the timestamp-descending ordering) is below `keep_count`, or its
timestamp is within `keep_days` of `now`. -/
def keptSpec (hist : List BackupRecord) (keep_count : Nat) (cutoff : Int) :
    List BackupRecord :=
  (((sortDesc hist).enum).filter
      (fun p => decide (p.1 < keep_count) || decide (cutoff ≤ p.2.timestamp))).map
    Prod.snd

/-- Spec-side removal set: the records satisfying neither retention
condition. -/
def removedSpec (hist : List BackupRecord) (keep_count : Nat) (cutoff : Int) :
    List BackupRecord :=
  (((sortDesc hist).enum).filter
      (fun p => !(decide (p.1 < keep_count) || decide (cutoff ≤ p.2.timestamp)))).map
    Prod.snd

/-! ### Helper lemmas -/

lemma fsGet_fsSet (fs : FS) (p : String) (d : FileData) (q : String) :
    fsGet (fsSet fs p d) q = if p = q then some d else fsGet fs q := by
  induction fs with
  | nil => simp only [fsSet, fsGet]
  | cons hd tl ih =>
      obtain ⟨a, e⟩ := hd
      by_cases hap : a = p
      · subst hap
        simp only [fsSet, if_pos rfl, fsGet]
        by_cases haq : a = q <;> simp [haq]
      · simp only [fsSet, if_neg hap, fsGet, ih]
        by_cases haq : a = q
        · subst haq
          have hpa : ¬ p = a := fun h => hap h.symm
          simp [hpa]
        · simp [haq]

lemma fsGet_fsSet_same (fs : FS) (p : String) (d : FileData) :
    fsGet (fsSet fs p d) p = some d := by
  rw [fsGet_fsSet]
  simp

lemma fsGet_fsSet_other (fs : FS) (p : String) (d : FileData) (q : String)
    (h : p ≠ q) : fsGet (fsSet fs p d) q = fsGet fs q := by
  rw [fsGet_fsSet]
  simp [h]

lemma find?_append_right {α : Type} (l1 l2 : List α) (p : α → Bool)
    (h : ∀ x ∈ l1, p x = false) : (l1 ++ l2).find? p = l2.find? p := by
  induction l1 with
  | nil => rfl
  | cons a tl ih =>
      have ha : p a = false := h a (by simp)
      simp only [List.cons_append, List.find?, ha]
      exact ih (fun x hx => h x (by simp [hx]))

lemma string_ne_of_getLast?_ne (s t : String)
    (h : s.data.getLast? ≠ t.data.getLast?) : s ≠ t := by
  intro e
  exact h (by rw [e])

lemma getLast?_append_bak (a : String) :
    (a ++ ".bak").data.getLast? = some 'k' := by
  rw [String.data_append]
  show (a.data ++ '.' :: ['b', 'a', 'k']).getLast? = some 'k'
  rw [List.getLast?_append_cons]
  rfl

lemma getLast?_append_json (a : String) :
    (a ++ ".json").data.getLast? = some 'n' := by
  rw [String.data_append]
  show (a.data ++ '.' :: ['j', 's', 'o', 'n']).getLast? = some 'n'
  rw [List.getLast?_append_cons]
  rfl

lemma getLast?_append_jsongz (a : String) :
    (a ++ ".json.gz").data.getLast? = some 'z' := by
  rw [String.data_append]
  show (a.data ++ '.' :: ['j', 's', 'o', 'n', '.', 'g', 'z']).getLast? = some 'z'
  rw [List.getLast?_append_cons]
  rfl

/-- The safety-copy name is strictly longer than the destination. -/
lemma safetyName_ne_dest (dest : String) (now : Int) :
    safetyName dest now ≠ dest := by
  intro h
  have h2 := congrArg String.length h
  have e1 : String.length ".pre_restore_" = 13 := rfl
  have e2 : String.length ".bak" = 4 := rfl
  simp only [safetyName, String.length_append, e1, e2] at h2
  omega

/-- The safety-copy name (ending in `.bak`) never collides with an
uncompressed artifact path (ending in `.json`). -/
lemma safetyName_ne_json (dest : String) (now : Int) (a : String) :
    safetyName dest now ≠ a ++ ".json" := by
  apply string_ne_of_getLast?_ne
  rw [getLast?_append_json]
  have : safetyName dest now = (dest ++ ".pre_restore_" ++ toString now) ++ ".bak" := rfl
  rw [this, getLast?_append_bak]
  decide

/-- The safety-copy name never collides with a compressed artifact path
(ending in `.json.gz`). -/
lemma safetyName_ne_jsongz (dest : String) (now : Int) (a : String) :
    safetyName dest now ≠ a ++ ".json.gz" := by
  apply string_ne_of_getLast?_ne
  rw [getLast?_append_jsongz]
  have : safetyName dest now = (dest ++ ".pre_restore_" ++ toString now) ++ ".bak" := rfl
  rw [this, getLast?_append_bak]
  decide

lemma retagIncremental_append (hist : List BackupRecord) (r : BackupRecord)
    (bid : String) (hbid : r.backup_id = bid)
    (h : ∀ x ∈ hist, x.backup_id ≠ bid) :
    retagIncremental (hist ++ [r]) bid
      = hist ++ [{ r with btype := "incremental" }] := by
  induction hist with
  | nil => simp [retagIncremental, hbid]
  | cons a tl ih =>
      have ha : a.backup_id ≠ bid := h a (by simp)
      simp only [List.cons_append, retagIncremental, if_neg ha, List.append_eq]
      rw [ih (fun x hx => h x (by simp [hx]))]

lemma retagDifferential_append (hist : List BackupRecord) (r : BackupRecord)
    (bid : String) (base : String) (hbid : r.backup_id = bid)
    (h : ∀ x ∈ hist, x.backup_id ≠ bid) :
    retagDifferential (hist ++ [r]) bid base
      = hist ++ [{ r with btype := "differential", based_on := some base }] := by
  induction hist with
  | nil => simp [retagDifferential, hbid]
  | cons a tl ih =>
      have ha : a.backup_id ≠ bid := h a (by simp)
      simp only [List.cons_append, retagDifferential, if_neg ha, List.append_eq]
      rw [ih (fun x hx => h x (by simp [hx]))]

lemma find?_eq_some_split {α : Type} (l : List α) (p : α → Bool) (a : α)
    (h : l.find? p = some a) :
    p a = true ∧ ∃ l1 l2, l = l1 ++ a :: l2 ∧ ∀ x ∈ l1, p x = false := by
  induction l with
  | nil => simp [List.find?] at h
  | cons b tl ih =>
      by_cases hb : p b
      · rw [List.find?_cons_of_pos _ hb] at h
        cases h
        exact ⟨hb, [], tl, rfl, by simp⟩
      · rw [List.find?_cons_of_neg _ hb] at h
        obtain ⟨hpa, l1, l2, hl, hl1⟩ := ih h
        refine ⟨hpa, b :: l1, l2, by rw [hl]; rfl, ?_⟩
        intro x hx
        rcases List.mem_cons.mp hx with hx | hx
        · rw [hx]
          exact Bool.of_not_eq_true hb
        · exact hl1 x hx

/-- The retention loop computes, over any enumeration start, the filter
of the positions satisfying the keep condition and its complement. -/
lemma cleanupLoop_eq (K : Nat) (cutoff : Int) (l : List BackupRecord) (i : Nat) :
    cleanupLoop K cutoff i l =
      (((l.enumFrom i).filter
          (fun p => decide (p.1 < K) || decide (cutoff ≤ p.2.timestamp))).map
         Prod.snd,
       ((l.enumFrom i).filter
          (fun p => !(decide (p.1 < K) || decide (cutoff ≤ p.2.timestamp)))).map
         Prod.snd) := by
  induction l generalizing i with
  | nil => rfl
  | cons b rest ih =>
      simp only [cleanupLoop, ih, List.enumFrom, List.filter_cons]
      by_cases h1 : i < K
      · simp [h1]
      · by_cases h2 : cutoff ≤ b.timestamp
        · simp [h1, h2]
        · simp [h1, h2]

/-- Explicit description of a successful uncompressed full backup of a
text source. -/
lemma create_full_text_plain (eng : Engine) (fs : FS) (now : Int)
    (dataFile : Option String) (description : String) (s : String)
    (hs : fsGet fs (dataFile.getD eng.data_file) = some (FileData.text s)) :
    create_full_backup eng fs now dataFile false description =
      (CreateResult.ok ("backup_full_" ++ toString now)
         (pathJoin eng.backup_dir (("backup_full_" ++ toString now) ++ ".json"))
         s.length false,
       { eng with
           backup_history := eng.backup_history ++
             [{ backup_id := "backup_full_" ++ toString now, btype := "full",
                timestamp := now, description := description,
                source_file := dataFile.getD eng.data_file,
                file_hash := some (md5Hex s), original_size := s.length,
                compressed := false, stored_size := s.length,
                compression_ratio := none,
                backup_file := ("backup_full_" ++ toString now) ++ ".json",
                based_on := none }],
           last_backup_hash := some (md5Hex s) },
       fsSet fs
         (pathJoin eng.backup_dir (("backup_full_" ++ toString now) ++ ".json"))
         (FileData.text s)) := by
  simp [create_full_backup, hs, fileBytes, fdSize]

/-- Explicit description of a successful compressed full backup of a
nonempty text source. -/
lemma create_full_text_gz (eng : Engine) (fs : FS) (now : Int)
    (dataFile : Option String) (description : String) (s : String)
    (hs : fsGet fs (dataFile.getD eng.data_file) = some (FileData.text s))
    (hnz : s.length ≠ 0) :
    create_full_backup eng fs now dataFile true description =
      (CreateResult.ok ("backup_full_" ++ toString now)
         (pathJoin eng.backup_dir (("backup_full_" ++ toString now) ++ ".json.gz"))
         (s.length + 20) true,
       { eng with
           backup_history := eng.backup_history ++
             [{ backup_id := "backup_full_" ++ toString now, btype := "full",
                timestamp := now, description := description,
                source_file := dataFile.getD eng.data_file,
                file_hash := some (md5Hex s), original_size := s.length,
                compressed := true, stored_size := s.length + 20,
                compression_ratio :=
                  some ((1 - ((s.length + 20 : Nat) : ℚ) / (s.length : ℚ)) * 100),
                backup_file := ("backup_full_" ++ toString now) ++ ".json.gz",
                based_on := none }],
           last_backup_hash := some (md5Hex s) },
       fsSet fs
         (pathJoin eng.backup_dir (("backup_full_" ++ toString now) ++ ".json.gz"))
         (FileData.gz s)) := by
  simp [create_full_backup, hs, fileBytes, fdSize, hnz]

lemma fsGet_preRestoreFS (fs : FS) (now : Int) (dest : String) (flag : Bool)
    (q : String) (h : q ≠ safetyName dest now) :
    fsGet (preRestoreFS fs now dest flag) q = fsGet fs q := by
  cases flag <;> cases h2 : fsGet fs dest <;> simp only [preRestoreFS, h2]
  exact fsGet_fsSet_other _ _ _ _ (fun hh => h hh.symm)

/-- The artifact filename the full path writes at time `now`
(`backup_full_<ts>.json` or `backup_full_<ts>.json.gz`). -/
def artifactName (now : Int) (compress : Bool) : String :=
  if compress then ("backup_full_" ++ toString now) ++ ".json.gz"
  else ("backup_full_" ++ toString now) ++ ".json"

/-- The artifact contents the full path writes for source content `s`. -/
def artifactData (s : String) (compress : Bool) : FileData :=
  if compress then FileData.gz s else FileData.text s

/-- The stored byte size of the artifact for source content `s`. -/
def storedSizeOf (s : String) (compress : Bool) : Nat :=
  if compress then s.length + 20 else s.length

/-- The backup record the full path appends for a text source with
content `s` (fields as `create_full_backup` builds them). -/
def fullRecordOf (eng : Engine) (now : Int) (dataFile : Option String)
    (compress : Bool) (description : String) (s : String) : BackupRecord :=
  { backup_id := "backup_full_" ++ toString now, btype := "full",
    timestamp := now, description := description,
    source_file := dataFile.getD eng.data_file,
    file_hash := some (md5Hex s), original_size := s.length,
    compressed := compress, stored_size := storedSizeOf s compress,
    compression_ratio :=
      if compress then
        some ((1 - ((s.length + 20 : Nat) : ℚ) / (s.length : ℚ)) * 100)
      else none,
    backup_file := artifactName now compress, based_on := none }

/-- Explicit description of a successful full backup of a text source:
result, appended record, updated cache, and the single artifact write. -/
lemma create_full_text_eq (eng : Engine) (fs : FS) (now : Int)
    (dataFile : Option String) (compress : Bool) (description : String)
    (s : String)
    (hs : fsGet fs (dataFile.getD eng.data_file) = some (FileData.text s))
    (hnz : compress = true → s.length ≠ 0) :
    create_full_backup eng fs now dataFile compress description =
      (CreateResult.ok ("backup_full_" ++ toString now)
         (pathJoin eng.backup_dir (artifactName now compress))
         (storedSizeOf s compress) compress,
       { eng with
           backup_history := eng.backup_history ++
             [fullRecordOf eng now dataFile compress description s],
           last_backup_hash := some (md5Hex s) },
       fsSet fs (pathJoin eng.backup_dir (artifactName now compress))
         (artifactData s compress)) := by
  cases compress with
  | false =>
      simpa [artifactName, artifactData, storedSizeOf, fullRecordOf] using
        create_full_text_plain eng fs now dataFile description s hs
  | true =>
      simpa [artifactName, artifactData, storedSizeOf, fullRecordOf] using
        create_full_text_gz eng fs now dataFile description s hs (hnz rfl)

/-! ### Claim C3 -/

/-- C3: `cleanup_old_backups(keep_count=K, keep_days=D)` retains in the
index exactly the records whose rank in the timestamp-descending
ordering is below `K` or whose timestamp is within `D` days of now, and
the records its removal loop schedules for deletion are exactly those
satisfying neither condition. -/
theorem cleanup_retention_exact (eng : Engine) (fs : FS) (now : Int)
    (keep_count keep_days : Nat) :
    (cleanup_old_backups eng fs now keep_count keep_days).2.1.backup_history
        = keptSpec eng.backup_history keep_count
            (now - (keep_days : Int) * daySeconds)
      ∧ (cleanupLoop keep_count (now - (keep_days : Int) * daySeconds) 0
            (sortDesc eng.backup_history)).2
        = removedSpec eng.backup_history keep_count
            (now - (keep_days : Int) * daySeconds) := by
  constructor
  · cases h : eng.backup_history with
    | nil =>
        simp [cleanup_old_backups, h, keptSpec, sortDesc]
    | cons b tl =>
        simp only [cleanup_old_backups, h]
        rw [cleanupLoop_eq]
        simp [keptSpec, List.enum_eq_enumFrom, h]
  · rw [cleanupLoop_eq]
    simp [removedSpec, List.enum_eq_enumFrom]

/-! ### Restore failure anatomy (shared by several claims) -/

lemma restore_unknown_id (eng : Engine) (fs : FS) (now : Int) (bid : String)
    (rp : Option String) (flag : Bool) (h : get_backup_info eng bid = none) :
    restore_backup eng fs now bid rp flag
      = (RestoreResult.err ("Backup not found"), eng, fs) := by
  simp [restore_backup, h]

/-- On any failing restore, the only path whose contents can differ
afterwards is the timestamped safety copy of the resolved destination. -/
lemma restore_isErr_changes_only_safety (eng : Engine) (fs : FS) (now : Int)
    (bid : String) (rp : Option String) (flag : Bool)
    (herr : (restore_backup eng fs now bid rp flag).1.isErr = true)
    (q : String)
    (hq : ∀ d, restoreDest eng bid rp = some d → q ≠ safetyName d now) :
    fsGet (restore_backup eng fs now bid rp flag).2.2 q = fsGet fs q := by
  cases hinfo : get_backup_info eng bid with
  | none => rw [restore_unknown_id eng fs now bid rp flag hinfo]
  | some info =>
      have hq' : q ≠ safetyName (rp.getD info.source_file) now :=
        hq _ (by simp [restoreDest, hinfo])
      have hpre : fsGet (preRestoreFS fs now (rp.getD info.source_file) flag) q
          = fsGet fs q := fsGet_preRestoreFS _ _ _ _ _ hq'
      simp only [restore_backup, hinfo] at herr ⊢
      cases hart : fsGet fs (pathJoin eng.backup_dir info.backup_file) with
      | none => simp [hart]
      | some fd0 =>
          simp only [hart] at herr ⊢
          cases hart2 : fsGet (preRestoreFS fs now (rp.getD info.source_file) flag)
              (pathJoin eng.backup_dir info.backup_file) with
          | none => simp [hart2, hpre]
          | some fd =>
              simp only [hart2] at herr ⊢
              cases hread : readArtifact info.compressed fd with
              | none => simp [hread, hpre]
              | some data =>
                  simp only [hread] at herr ⊢
                  by_cases hjson : jsonOk data
                  · by_cases hdir : hasDirComponent (rp.getD info.source_file)
                    · simp [hjson, hdir, RestoreResult.isErr] at herr
                    · simp [hjson, hdir, hpre]
                  · simp [hjson, hpre]

/-- On any failing restore, the resolved destination is unchanged. -/
lemma restore_isErr_dest_unchanged (eng : Engine) (fs : FS) (now : Int)
    (bid : String) (rp : Option String) (flag : Bool) (d : String)
    (hd : restoreDest eng bid rp = some d)
    (herr : (restore_backup eng fs now bid rp flag).1.isErr = true) :
    fsGet (restore_backup eng fs now bid rp flag).2.2 d = fsGet fs d := by
  apply restore_isErr_changes_only_safety eng fs now bid rp flag herr
  intro d' hd'
  rw [hd] at hd'
  cases hd'
  exact fun he => safetyName_ne_dest d now he.symm

/-- A restore whose resolved destination has no directory component
always fails (`os.makedirs` on the empty dirname raises). -/
lemma restore_bare_dest_isErr (eng : Engine) (fs : FS) (now : Int)
    (bid : String) (rp : Option String) (flag : Bool) (d : String)
    (hd : restoreDest eng bid rp = some d)
    (hbare : hasDirComponent d = false) :
    (restore_backup eng fs now bid rp flag).1.isErr = true := by
  cases hinfo : get_backup_info eng bid with
  | none => rw [restore_unknown_id eng fs now bid rp flag hinfo]; rfl
  | some info =>
      have hdd : rp.getD info.source_file = d := by
        simpa [restoreDest, hinfo] using hd
      simp only [restore_backup, hinfo, hdd]
      split
      · rfl
      · split
        · rfl
        · split
          · rfl
          · split_ifs with hjson hdir
            · rw [hbare] at hdir
              exact absurd hdir (by simp)
            · rfl
            · rfl

/-! ### Concrete fixtures used by witnesses and counterexamples -/

/-- An index record whose uncompressed artifact holds non-JSON text. -/
def recNoJson : BackupRecord :=
  { backup_id := "backup_full_5", btype := "full", timestamp := 5,
    description := "", source_file := "data/contributors.json",
    file_hash := some (md5Hex ("hello")), original_size := 5,
    compressed := false, stored_size := 5, compression_ratio := none,
    backup_file := "backup_full_5.json", based_on := none }

/-- Engine state holding `recNoJson`. -/
def engNoJson : Engine :=
  { backup_dir := "backups", data_file := "contributors.json",
    backup_history := [recNoJson], last_backup_hash := some (md5Hex ("hello")) }

/-- Disk state for `engNoJson`: the artifact exists but is not JSON, and
the destination file exists with valid content. -/
def fsNoJson : FS :=
  [("backups/backup_full_5.json", FileData.text ("hello")),
   ("data/contributors.json", FileData.text ("null"))]

/-- An index record whose `source_file` is a bare filename (the
engine's own default `contributors.json`), with a valid artifact. -/
def recBare : BackupRecord :=
  { backup_id := "backup_full_7", btype := "full", timestamp := 7,
    description := "", source_file := "contributors.json",
    file_hash := some (md5Hex ("null")), original_size := 4,
    compressed := false, stored_size := 4, compression_ratio := none,
    backup_file := "backup_full_7.json", based_on := none }

/-- Engine state holding `recBare`. -/
def engBare : Engine :=
  { backup_dir := "backups", data_file := "contributors.json",
    backup_history := [recBare], last_backup_hash := some (md5Hex ("null")) }

/-- Disk state for `engBare`: valid JSON artifact, bare destination
exists. -/
def fsBare : FS :=
  [("backups/backup_full_7.json", FileData.text ("null")),
   ("contributors.json", FileData.text ("0"))]

/-! ### Claim C5 -/

/-- C5: every `restore_backup` call that returns failure — unknown
backup id, absent artifact, or artifact content that fails to read or
parse — leaves the destination path byte-for-byte unchanged; with an
unknown id the whole disk is unchanged. -/
theorem restore_failure_leaves_dest_unchanged (eng : Engine) (fs : FS)
    (now : Int) (bid : String) (rp : Option String) (flag : Bool) :
    (get_backup_info eng bid = none →
        restore_backup eng fs now bid rp flag
          = (RestoreResult.err ("Backup not found"), eng, fs))
    ∧ (∀ d, restoreDest eng bid rp = some d →
        (restore_backup eng fs now bid rp flag).1.isErr = true →
        fsGet (restore_backup eng fs now bid rp flag).2.2 d = fsGet fs d) :=
  ⟨fun h => restore_unknown_id eng fs now bid rp flag h,
   fun d hd herr => restore_isErr_dest_unchanged eng fs now bid rp flag d hd herr⟩

theorem restore_failure_leaves_dest_unchanged_witness :
    fsGet (restore_backup engNoJson fsNoJson 9 ("backup_full_5") none true).2.2
        ("data/contributors.json")
      = fsGet fsNoJson ("data/contributors.json") :=
  (restore_failure_leaves_dest_unchanged engNoJson fsNoJson 9 ("backup_full_5")
      none true).2 ("data/contributors.json") (by decide) (by decide)

/-! ### Claim C10 -/

/-- C10: whenever the resolved destination of a restore has no
directory component — including the default destination when the
record's `source_file` is a bare filename — the call fails
(`os.makedirs` on the empty dirname raises) and the destination is not
written. -/
theorem restore_bare_destination_always_fails (eng : Engine) (fs : FS)
    (now : Int) (bid : String) (rp : Option String) (flag : Bool) (d : String)
    (hd : restoreDest eng bid rp = some d)
    (hbare : hasDirComponent d = false) :
    (restore_backup eng fs now bid rp flag).1.isErr = true
    ∧ fsGet (restore_backup eng fs now bid rp flag).2.2 d = fsGet fs d := by
  have h1 := restore_bare_dest_isErr eng fs now bid rp flag d hd hbare
  exact ⟨h1, restore_isErr_dest_unchanged eng fs now bid rp flag d hd h1⟩

theorem restore_bare_destination_always_fails_witness :
    (restore_backup engBare fsBare 9 ("backup_full_7") none true).1.isErr = true
    ∧ fsGet (restore_backup engBare fsBare 9 ("backup_full_7") none true).2.2
        ("contributors.json")
      = fsGet fsBare ("contributors.json") :=
  restore_bare_destination_always_fails engBare fsBare 9 ("backup_full_7") none
    true ("contributors.json") (by decide) (by decide)

/-! ### Claim C4 -/

lemma verify_no_mutation (eng : Engine) (fs : FS) (bid : String) :
    (verify_backup eng fs bid).2 = (eng, fs) := by
  unfold verify_backup
  repeat' split
  all_goals (try rfl)
  all_goals (dsimp only; repeat' split)
  all_goals rfl

/-- C4 counterexample: a failing restore (artifact content is not JSON)
has already created the pre-restore safety copy, so the on-disk state
after the call differs from the state before it — the claim that every
failing restore leaves all on-disk state exactly as it was is false. -/
theorem restore_failure_can_change_disk :
    (restore_backup engNoJson fsNoJson 9 ("backup_full_5") none true).1.isErr = true
    ∧ (restore_backup engNoJson fsNoJson 9 ("backup_full_5") none true).2.2 ≠ fsNoJson
    ∧ fsGet (restore_backup engNoJson fsNoJson 9 ("backup_full_5") none true).2.2
        (safetyName ("data/contributors.json") 9) = some (FileData.text ("null"))
    ∧ fsGet fsNoJson (safetyName ("data/contributors.json") 9) = none := by
  refine ⟨by decide, ?_, by decide, by decide⟩
  intro h
  have h2 := congrArg (fun l => fsGet l (safetyName ("data/contributors.json") 9)) h
  simp only at h2
  rw [show fsGet (restore_backup engNoJson fsNoJson 9 ("backup_full_5") none true).2.2
        (safetyName ("data/contributors.json") 9) = some (FileData.text ("null"))
      from by decide,
      show fsGet fsNoJson (safetyName ("data/contributors.json") 9) = none
      from by decide] at h2
  exact Option.noConfusion h2

/-- C4 (amended): every `verify_backup` call leaves the engine and the
disk exactly as they were; every failing `restore_backup` call leaves
the resolved destination and every path other than the timestamped
pre-restore safety copy unchanged — the safety copy, created before the
artifact is validated, is the only possible on-disk change of a failed
restore. -/
theorem verify_and_failed_restore_preserve_state :
    (∀ (eng : Engine) (fs : FS) (bid : String),
        (verify_backup eng fs bid).2 = (eng, fs))
    ∧ (∀ (eng : Engine) (fs : FS) (now : Int) (bid : String)
          (rp : Option String) (flag : Bool),
        (restore_backup eng fs now bid rp flag).1.isErr = true →
        (∀ d, restoreDest eng bid rp = some d →
            fsGet (restore_backup eng fs now bid rp flag).2.2 d = fsGet fs d)
        ∧ ∀ q, (∀ d, restoreDest eng bid rp = some d → q ≠ safetyName d now) →
            fsGet (restore_backup eng fs now bid rp flag).2.2 q = fsGet fs q) :=
  ⟨verify_no_mutation,
   fun eng fs now bid rp flag herr =>
     ⟨fun d hd => restore_isErr_dest_unchanged eng fs now bid rp flag d hd herr,
      fun q hq => restore_isErr_changes_only_safety eng fs now bid rp flag herr q hq⟩⟩

theorem verify_and_failed_restore_preserve_state_witness :
    (verify_backup engNoJson fsNoJson ("backup_full_5")).2 = (engNoJson, fsNoJson)
    ∧ fsGet (restore_backup engNoJson fsNoJson 9 ("backup_full_5") none true).2.2
        ("backups/backup_full_5.json")
      = fsGet fsNoJson ("backups/backup_full_5.json") :=
  ⟨verify_and_failed_restore_preserve_state.1 engNoJson fsNoJson ("backup_full_5"),
   (verify_and_failed_restore_preserve_state.2 engNoJson fsNoJson 9
       ("backup_full_5") none true (by decide)).2 ("backups/backup_full_5.json")
     (fun d hd => by
       rw [show restoreDest engNoJson ("backup_full_5") none
             = some ("data/contributors.json") from by decide] at hd
       cases hd
       decide)⟩

/-! ### Claim C2 -/

/-- C2 (amended): when the current source fingerprint equals
`last_backup_hash`, `create_incremental` returns
`{success: true, skipped: true}`, writes nothing and appends nothing.
Consequently two successive `create_incremental` calls on an unchanged
source perform at most one artifact write; when the fingerprint
differs from `last_backup_hash` at the first call (so it is not itself
skipped) and the full path succeeds, exactly the first call writes an
artifact and appends a record, and the second call reports
`skipped = true` with no state change. -/
theorem incremental_skip_and_two_calls (eng : Engine) (fs : FS)
    (now now2 : Int) (dataFile : Option String) (compress : Bool)
    (description : String) (s : String) :
    (getFileHash fs (dataFile.getD eng.data_file) = eng.last_backup_hash →
        create_incremental_backup eng fs now dataFile compress description
          = (CreateResult.skipped ("No changes detected since last backup"),
             eng, fs))
    ∧ (fsGet fs (dataFile.getD eng.data_file) = some (FileData.text s) →
       some (md5Hex s) ≠ eng.last_backup_hash →
       (compress = true → s.length ≠ 0) →
       dataFile.getD eng.data_file
           ≠ pathJoin eng.backup_dir (artifactName now compress) →
       create_incremental_backup eng fs now dataFile compress description
           = (CreateResult.ok ("backup_full_" ++ toString now)
                (pathJoin eng.backup_dir (artifactName now compress))
                (storedSizeOf s compress) compress,
              { eng with
                  backup_history :=
                    retagIncremental
                      (eng.backup_history ++
                        [fullRecordOf eng now dataFile compress description s])
                      ("backup_full_" ++ toString now),
                  last_backup_hash := some (md5Hex s) },
              fsSet fs (pathJoin eng.backup_dir (artifactName now compress))
                (artifactData s compress))
         ∧ create_incremental_backup
             { eng with
                 backup_history :=
                   retagIncremental
                     (eng.backup_history ++
                       [fullRecordOf eng now dataFile compress description s])
                     ("backup_full_" ++ toString now),
                 last_backup_hash := some (md5Hex s) }
             (fsSet fs (pathJoin eng.backup_dir (artifactName now compress))
               (artifactData s compress))
             now2 dataFile compress description
           = (CreateResult.skipped ("No changes detected since last backup"),
              { eng with
                  backup_history :=
                    retagIncremental
                      (eng.backup_history ++
                        [fullRecordOf eng now dataFile compress description s])
                      ("backup_full_" ++ toString now),
                  last_backup_hash := some (md5Hex s) },
              fsSet fs (pathJoin eng.backup_dir (artifactName now compress))
                (artifactData s compress))) := by
  constructor
  · intro h
    simp [create_incremental_backup, h]
  · intro hs hne hnz hdf
    have hcur : getFileHash fs (dataFile.getD eng.data_file) = some (md5Hex s) := by
      simp [getFileHash, hs, fileBytes]
    have hfull := create_full_text_eq eng fs now dataFile compress description s hs hnz
    have hfirst : create_incremental_backup eng fs now dataFile compress description
        = (CreateResult.ok ("backup_full_" ++ toString now)
             (pathJoin eng.backup_dir (artifactName now compress))
             (storedSizeOf s compress) compress,
           { eng with
               backup_history :=
                 retagIncremental
                   (eng.backup_history ++
                     [fullRecordOf eng now dataFile compress description s])
                   ("backup_full_" ++ toString now),
               last_backup_hash := some (md5Hex s) },
           fsSet fs (pathJoin eng.backup_dir (artifactName now compress))
             (artifactData s compress)) := by
      simp only [create_incremental_backup, hcur]
      rw [if_neg hne, hfull]
    refine ⟨hfirst, ?_⟩
    have hs2 : fsGet (fsSet fs (pathJoin eng.backup_dir (artifactName now compress))
        (artifactData s compress)) (dataFile.getD eng.data_file)
        = some (FileData.text s) := by
      rw [fsGet_fsSet_other _ _ _ _ (fun h => hdf h.symm), hs]
    simp [create_incremental_backup, getFileHash, hs2, fileBytes]

/-- A full-backup record of the unchanged default source at time 0. -/
def recSame : BackupRecord :=
  { backup_id := "backup_full_0", btype := "full", timestamp := 0,
    description := "", source_file := "contributors.json",
    file_hash := some (md5Hex ("null")), original_size := 4,
    compressed := false, stored_size := 4, compression_ratio := none,
    backup_file := "backup_full_0.json", based_on := none }

/-- Engine state immediately after a full backup of the unchanged
source: the change cache already matches the source fingerprint. -/
def engSame : Engine :=
  { backup_dir := "backups", data_file := "contributors.json",
    backup_history := [recSame], last_backup_hash := some (md5Hex ("null")) }

/-- Disk state for `engSame`: source and its full-backup artifact. -/
def fsSame : FS :=
  [("contributors.json", FileData.text ("null")),
   ("backups/backup_full_0.json", FileData.text ("null"))]

/-- C2 counterexample: reachable state (shown by the first conjunct to
arise from `create_full_backup` on a fresh engine) in which two
successive `create_incremental` calls on the unchanged source both
skip — neither performs an artifact write — refuting the claim that of
two successive calls on an unchanged source exactly the first writes. -/
theorem incremental_two_calls_can_write_nothing :
    create_full_backup
        { backup_dir := "backups", data_file := "contributors.json",
          backup_history := [], last_backup_hash := none }
        [("contributors.json", FileData.text ("null"))] 0 none false ""
      = (CreateResult.ok ("backup_full_0") ("backups/backup_full_0.json") 4 false,
         engSame, fsSame)
    ∧ create_incremental_backup engSame fsSame 1 none false ""
      = (CreateResult.skipped ("No changes detected since last backup"),
         engSame, fsSame)
    ∧ create_incremental_backup engSame fsSame 2 none false ""
      = (CreateResult.skipped ("No changes detected since last backup"),
         engSame, fsSame) := by
  refine ⟨?_, ?_, ?_⟩ <;> decide

/-- A fresh engine with an existing, changed (never backed-up) source. -/
def engFresh : Engine :=
  { backup_dir := "backups", data_file := "contributors.json",
    backup_history := [], last_backup_hash := none }

/-- Disk state for `engFresh`: just the source file. -/
def fsFresh : FS := [("contributors.json", FileData.text ("null"))]

theorem incremental_skip_and_two_calls_witness :
    create_incremental_backup engFresh fsFresh 1 none false ""
        = (CreateResult.ok ("backup_full_" ++ toString (1 : Int))
             (pathJoin engFresh.backup_dir (artifactName 1 false))
             (storedSizeOf ("null") false) false,
           { engFresh with
               backup_history :=
                 retagIncremental
                   (engFresh.backup_history ++
                     [fullRecordOf engFresh 1 none false "" ("null")])
                   ("backup_full_" ++ toString (1 : Int)),
               last_backup_hash := some (md5Hex ("null")) },
           fsSet fsFresh (pathJoin engFresh.backup_dir (artifactName 1 false))
             (artifactData ("null") false))
    ∧ create_incremental_backup
        { engFresh with
            backup_history :=
              retagIncremental
                (engFresh.backup_history ++
                  [fullRecordOf engFresh 1 none false "" ("null")])
                ("backup_full_" ++ toString (1 : Int)),
            last_backup_hash := some (md5Hex ("null")) }
        (fsSet fsFresh (pathJoin engFresh.backup_dir (artifactName 1 false))
          (artifactData ("null") false)) 2 none false ""
      = (CreateResult.skipped ("No changes detected since last backup"),
         { engFresh with
             backup_history :=
               retagIncremental
                 (engFresh.backup_history ++
                   [fullRecordOf engFresh 1 none false "" ("null")])
                 ("backup_full_" ++ toString (1 : Int)),
             last_backup_hash := some (md5Hex ("null")) },
         fsSet fsFresh (pathJoin engFresh.backup_dir (artifactName 1 false))
           (artifactData ("null") false)) :=
  (incremental_skip_and_two_calls engFresh fsFresh 1 2 none false "" ("null")).2
    (by decide) (by decide) (by decide) (by decide)

/-! ### Claim C8 -/

/-- C8 counterexample: a concrete compressed backup of a 4-character
source with a 24-byte artifact records `compression_ratio
= (1 - 24/4) * 100 = -500`, which differs from the claimed
`1 - stored_size/original_size = -5`: the code stores a percentage. -/
theorem compression_ratio_not_plain_fraction :
    (create_full_backup engFresh fsFresh 3 none true "").2.1.backup_history
      = [fullRecordOf engFresh 3 none true "" ("null")]
    ∧ (fullRecordOf engFresh 3 none true "" ("null")).stored_size = 24
    ∧ (fullRecordOf engFresh 3 none true "" ("null")).original_size = 4
    ∧ (fullRecordOf engFresh 3 none true "" ("null")).compression_ratio
        = some ((1 - (24 : ℚ) / 4) * 100)
    ∧ (fullRecordOf engFresh 3 none true "" ("null")).compression_ratio
        ≠ some (1 - ((fullRecordOf engFresh 3 none true "" ("null")).stored_size : ℚ)
            / ((fullRecordOf engFresh 3 none true "" ("null")).original_size : ℚ)) := by
  refine ⟨?_, by decide, by decide, ?_, ?_⟩
  · rw [create_full_text_eq engFresh fsFresh 3 none true "" ("null") (by decide)
        (fun _ => by decide)]
    rfl
  · have hl : ("null").length = 4 := rfl
    simp [fullRecordOf, storedSizeOf, hl]
  · have hl : ("null").length = 4 := rfl
    simp [fullRecordOf, storedSizeOf, hl]
    norm_num

/-- C8 (amended): for every successful compressed backup of a
non-empty text source, the recorded `compression_ratio` equals
`(1 - stored_size/original_size) * 100`, i.e. the space saving
expressed as a percentage. -/
theorem compression_ratio_is_percentage (eng : Engine) (fs : FS) (now : Int)
    (dataFile : Option String) (description : String) (s : String)
    (hs : fsGet fs (dataFile.getD eng.data_file) = some (FileData.text s))
    (hnz : s.length ≠ 0) :
    (create_full_backup eng fs now dataFile true description).2.1.backup_history
      = eng.backup_history ++ [fullRecordOf eng now dataFile true description s]
    ∧ (fullRecordOf eng now dataFile true description s).compressed = true
    ∧ (fullRecordOf eng now dataFile true description s).compression_ratio
        = some ((1 -
            ((fullRecordOf eng now dataFile true description s).stored_size : ℚ)
              / ((fullRecordOf eng now dataFile true description s).original_size : ℚ))
          * 100) := by
  refine ⟨?_, rfl, ?_⟩
  · rw [create_full_text_eq eng fs now dataFile true description s hs (fun _ => hnz)]
  · simp [fullRecordOf, storedSizeOf]

theorem compression_ratio_is_percentage_witness :
    (create_full_backup engFresh fsFresh 4 none true "").2.1.backup_history
      = engFresh.backup_history ++ [fullRecordOf engFresh 4 none true "" ("null")]
    ∧ (fullRecordOf engFresh 4 none true "" ("null")).compressed = true
    ∧ (fullRecordOf engFresh 4 none true "" ("null")).compression_ratio
        = some ((1 -
            ((fullRecordOf engFresh 4 none true "" ("null")).stored_size : ℚ)
              / ((fullRecordOf engFresh 4 none true "" ("null")).original_size : ℚ))
          * 100) :=
  compression_ratio_is_percentage engFresh fsFresh 4 none "" ("null") (by decide)
    (by decide)

/-! ### Claim C6 -/

/-- The backward scan of the differential path returns a record of kind
full, positioned so that no record after it in the index is full: the
most recent full record. -/
lemma findLastFull_spec (hist : List BackupRecord) (lf : BackupRecord)
    (h : findLastFull hist = some lf) :
    lf.btype = "full"
    ∧ ∃ pre suf, hist = pre ++ lf :: suf ∧ ∀ x ∈ suf, x.btype ≠ "full" := by
  obtain ⟨hp, l1, l2, hsplit, hl1⟩ :=
    find?_eq_some_split hist.reverse (fun b => b.btype == "full") lf h
  refine ⟨by simpa using hp, l2.reverse, l1.reverse, ?_, ?_⟩
  · have := congrArg List.reverse hsplit
    simpa using this
  · intro x hx
    have hx' : x ∈ l1 := by simpa using hx
    simpa using hl1 x hx'

/-- C6: `create_differential` with no full record in the index behaves
exactly as `create_full` (the appended record has kind full and no
`based_on`); with at least one full record — `findLastFull` returns the
most recent record of kind full, as the second conjunct states — the
appended record is retagged to kind differential with `based_on` set to
that record's `backup_id`. -/
theorem differential_fallback_and_retag (eng : Engine) (fs : FS) (now : Int)
    (dataFile : Option String) (compress : Bool) (description : String)
    (s : String) :
    ((∀ x ∈ eng.backup_history, x.btype ≠ "full") →
        create_differential_backup eng fs now dataFile compress description
          = create_full_backup eng fs now dataFile compress description
        ∧ (fullRecordOf eng now dataFile compress description s).btype = "full"
        ∧ (fullRecordOf eng now dataFile compress description s).based_on = none)
    ∧ (∀ lf, findLastFull eng.backup_history = some lf →
        (lf.btype = "full"
          ∧ ∃ pre suf, eng.backup_history = pre ++ lf :: suf
              ∧ ∀ x ∈ suf, x.btype ≠ "full")
        ∧ (fsGet fs (dataFile.getD eng.data_file) = some (FileData.text s) →
           (compress = true → s.length ≠ 0) →
           (∀ x ∈ eng.backup_history,
               x.backup_id ≠ "backup_full_" ++ toString now) →
           create_differential_backup eng fs now dataFile compress description
             = (CreateResult.ok ("backup_full_" ++ toString now)
                  (pathJoin eng.backup_dir (artifactName now compress))
                  (storedSizeOf s compress) compress,
                { eng with
                    backup_history := eng.backup_history ++
                      [{ fullRecordOf eng now dataFile compress description s with
                           btype := "differential",
                           based_on := some lf.backup_id }],
                    last_backup_hash := some (md5Hex s) },
                fsSet fs (pathJoin eng.backup_dir (artifactName now compress))
                  (artifactData s compress)))) := by
  constructor
  · intro h
    have hnone : findLastFull eng.backup_history = none := by
      rw [findLastFull, List.find?_eq_none]
      intro x hx
      have hx' : x ∈ eng.backup_history := by simpa using hx
      simpa using h x hx'
    exact ⟨by simp [create_differential_backup, hnone], rfl, rfl⟩
  · intro lf hlf
    refine ⟨findLastFull_spec eng.backup_history lf hlf, ?_⟩
    intro hs hnz hfresh
    have hfull := create_full_text_eq eng fs now dataFile compress description s hs hnz
    simp only [create_differential_backup, hlf, hfull]
    rw [retagDifferential_append eng.backup_history
        (fullRecordOf eng now dataFile compress description s)
        ("backup_full_" ++ toString now) lf.backup_id rfl hfresh]

/-- An index holding one full record and one incremental record, the
full one older. -/
def engTwoKinds : Engine :=
  { backup_dir := "backups", data_file := "contributors.json",
    backup_history :=
      [recSame,
       { backup_id := "backup_full_1", btype := "incremental", timestamp := 1,
         description := "", source_file := "contributors.json",
         file_hash := some (md5Hex ("true")), original_size := 4,
         compressed := false, stored_size := 4, compression_ratio := none,
         backup_file := "backup_full_1.json", based_on := none }],
    last_backup_hash := some (md5Hex ("true")) }

/-- Disk state for `engTwoKinds`. -/
def fsTwoKinds : FS :=
  [("contributors.json", FileData.text ("0")),
   ("backups/backup_full_0.json", FileData.text ("null")),
   ("backups/backup_full_1.json", FileData.text ("true"))]

theorem differential_fallback_and_retag_witness :
    (create_differential_backup engFresh fsFresh 3 none false ""
        = create_full_backup engFresh fsFresh 3 none false ""
      ∧ (fullRecordOf engFresh 3 none false "" ("null")).btype = "full"
      ∧ (fullRecordOf engFresh 3 none false "" ("null")).based_on = none)
    ∧ create_differential_backup engTwoKinds fsTwoKinds 2 none false ""
        = (CreateResult.ok ("backup_full_" ++ toString (2 : Int))
             (pathJoin engTwoKinds.backup_dir (artifactName 2 false))
             (storedSizeOf ("0") false) false,
           { engTwoKinds with
               backup_history := engTwoKinds.backup_history ++
                 [{ fullRecordOf engTwoKinds 2 none false "" ("0") with
                      btype := "differential",
                      based_on := some recSame.backup_id }],
               last_backup_hash := some (md5Hex ("0")) },
           fsSet fsTwoKinds (pathJoin engTwoKinds.backup_dir (artifactName 2 false))
             (artifactData ("0") false)) :=
  ⟨(differential_fallback_and_retag engFresh fsFresh 3 none false "" ("null")).1
     (by decide),
   ((differential_fallback_and_retag engTwoKinds fsTwoKinds 2 none false ""
        ("0")).2 recSame (by decide)).2 (by decide) (by decide) (by decide)⟩

/-! ### Claim C9 -/

/-- C9: on an engine whose change cache is unset, a missing source file
makes `create_incremental` skip (`None == None`) with no state change,
while the full path on the same state reports the NotFound error. -/
theorem incremental_missing_source_fresh_cache_skips (eng : Engine) (fs : FS)
    (now : Int) (dataFile : Option String) (compress : Bool)
    (description : String)
    (hcache : eng.last_backup_hash = none)
    (hmiss : fsGet fs (dataFile.getD eng.data_file) = none) :
    create_incremental_backup eng fs now dataFile compress description
      = (CreateResult.skipped ("No changes detected since last backup"), eng, fs)
    ∧ create_full_backup eng fs now dataFile compress description
      = (CreateResult.err ("Data file not found: " ++ dataFile.getD eng.data_file),
         eng, fs) := by
  constructor
  · simp [create_incremental_backup, getFileHash, hmiss, hcache]
  · simp [create_full_backup, hmiss]

theorem incremental_missing_source_fresh_cache_skips_witness :
    create_incremental_backup engFresh [] 1 none false ""
      = (CreateResult.skipped ("No changes detected since last backup"),
         engFresh, [])
    ∧ create_full_backup engFresh [] 1 none false ""
      = (CreateResult.err ("Data file not found: " ++
           (Option.getD none engFresh.data_file)), engFresh, []) :=
  incremental_missing_source_fresh_cache_skips engFresh [] 1 none false ""
    (by decide) (by decide)

/-! ### Claim C1 -/

/-- If the index of `eng'` is `hist ++ [r]` with `r`'s id fresh in
`hist`, and `r`'s artifact holds (per its compression flag) payload `s`
with `s` valid JSON, then verification of `r`'s id reports valid. -/
lemma verify_valid_generic (eng' : Engine) (fs' : FS) (bid : String)
    (r : BackupRecord) (hist : List BackupRecord) (s : String)
    (hh : eng'.backup_history = hist ++ [r])
    (hbid : r.backup_id = bid)
    (hfresh : ∀ x ∈ hist, x.backup_id ≠ bid)
    (hart : fsGet fs' (pathJoin eng'.backup_dir r.backup_file)
        = some (artifactData s r.compressed))
    (hjson : jsonOk s = true) :
    (verify_backup eng' fs' bid).1.isValid = true := by
  have hinfo : get_backup_info eng' bid = some r := by
    rw [get_backup_info, hh,
      find?_append_right _ _ _ (fun x hx => by simp [hfresh x hx])]
    simp [List.find?, hbid]
  cases hc : r.compressed with
  | false =>
      rw [hc] at hart
      simp [verify_backup, hinfo, hart, artifactData, hc, hjson,
        VerifyResult.isValid]
  | true =>
      rw [hc] at hart
      simp [verify_backup, hinfo, hart, artifactData, hc, hjson,
        VerifyResult.isValid]

/-- C1 counterexample: `create_full_backup` succeeds on a source whose
content is not JSON, and verifying the record it just created reports
`valid = false` — refuting the claim for arbitrary source files. -/
theorem create_succeeds_but_verify_invalid :
    (create_full_backup engFresh
        [("contributors.json", FileData.text ("hello"))] 6 none false "").1
      = CreateResult.ok ("backup_full_6") ("backups/backup_full_6.json") 5 false
    ∧ (verify_backup
        (create_full_backup engFresh
          [("contributors.json", FileData.text ("hello"))] 6 none false "").2.1
        (create_full_backup engFresh
          [("contributors.json", FileData.text ("hello"))] 6 none false "").2.2
        ("backup_full_6")).1.isValid = false := by
  exact ⟨by decide, by decide⟩

/-- C1 (amended): for a source file whose content parses as JSON, and a
fresh backup id (the index's id-uniqueness invariant), verifying the
record just created by a successful `create_full_backup`,
`create_incremental_backup` (when it is not skipped, i.e. the
fingerprint changed) or `create_differential_backup` reports
`valid = true`. -/
theorem verify_after_create_valid (eng : Engine) (fs : FS) (now : Int)
    (dataFile : Option String) (compress : Bool) (description : String)
    (s : String)
    (hs : fsGet fs (dataFile.getD eng.data_file) = some (FileData.text s))
    (hjson : jsonOk s = true)
    (hnz : compress = true → s.length ≠ 0)
    (hfresh : ∀ x ∈ eng.backup_history,
        x.backup_id ≠ "backup_full_" ++ toString now) :
    (verify_backup
        (create_full_backup eng fs now dataFile compress description).2.1
        (create_full_backup eng fs now dataFile compress description).2.2
        ("backup_full_" ++ toString now)).1.isValid = true
    ∧ (some (md5Hex s) ≠ eng.last_backup_hash →
        (verify_backup
            (create_incremental_backup eng fs now dataFile compress description).2.1
            (create_incremental_backup eng fs now dataFile compress description).2.2
            ("backup_full_" ++ toString now)).1.isValid = true)
    ∧ (verify_backup
          (create_differential_backup eng fs now dataFile compress description).2.1
          (create_differential_backup eng fs now dataFile compress description).2.2
          ("backup_full_" ++ toString now)).1.isValid = true := by
  have hfull := create_full_text_eq eng fs now dataFile compress description s hs hnz
  have hfullvalid : (verify_backup
      (create_full_backup eng fs now dataFile compress description).2.1
      (create_full_backup eng fs now dataFile compress description).2.2
      ("backup_full_" ++ toString now)).1.isValid = true := by
    rw [hfull]
    exact verify_valid_generic _ _ _
      (fullRecordOf eng now dataFile compress description s)
      eng.backup_history s rfl rfl hfresh (fsGet_fsSet_same _ _ _) hjson
  refine ⟨hfullvalid, ?_, ?_⟩
  · intro hne
    have hcur : getFileHash fs (dataFile.getD eng.data_file)
        = some (md5Hex s) := by
      simp [getFileHash, hs, fileBytes]
    have hinc : create_incremental_backup eng fs now dataFile compress description
        = (CreateResult.ok ("backup_full_" ++ toString now)
             (pathJoin eng.backup_dir (artifactName now compress))
             (storedSizeOf s compress) compress,
           { eng with
               backup_history :=
                 retagIncremental
                   (eng.backup_history ++
                     [fullRecordOf eng now dataFile compress description s])
                   ("backup_full_" ++ toString now),
               last_backup_hash := some (md5Hex s) },
           fsSet fs (pathJoin eng.backup_dir (artifactName now compress))
             (artifactData s compress)) := by
      simp only [create_incremental_backup, hcur]
      rw [if_neg hne, hfull]
    rw [hinc,
      retagIncremental_append eng.backup_history
        (fullRecordOf eng now dataFile compress description s)
        ("backup_full_" ++ toString now) rfl hfresh]
    exact verify_valid_generic _ _ _
      { fullRecordOf eng now dataFile compress description s with
          btype := "incremental" }
      eng.backup_history s rfl rfl hfresh (fsGet_fsSet_same _ _ _) hjson
  · cases hlast : findLastFull eng.backup_history with
    | none =>
        have heq : create_differential_backup eng fs now dataFile compress description
            = create_full_backup eng fs now dataFile compress description := by
          simp [create_differential_backup, hlast]
        rw [heq]
        exact hfullvalid
    | some lf =>
        have hdiff : create_differential_backup eng fs now dataFile compress description
            = (CreateResult.ok ("backup_full_" ++ toString now)
                 (pathJoin eng.backup_dir (artifactName now compress))
                 (storedSizeOf s compress) compress,
               { eng with
                   backup_history :=
                     retagDifferential
                       (eng.backup_history ++
                         [fullRecordOf eng now dataFile compress description s])
                       ("backup_full_" ++ toString now) lf.backup_id,
                   last_backup_hash := some (md5Hex s) },
               fsSet fs (pathJoin eng.backup_dir (artifactName now compress))
                 (artifactData s compress)) := by
          simp only [create_differential_backup, hlast, hfull]
        rw [hdiff,
          retagDifferential_append eng.backup_history
            (fullRecordOf eng now dataFile compress description s)
            ("backup_full_" ++ toString now) lf.backup_id rfl hfresh]
        exact verify_valid_generic _ _ _
          { fullRecordOf eng now dataFile compress description s with
              btype := "differential", based_on := some lf.backup_id }
          eng.backup_history s rfl rfl hfresh (fsGet_fsSet_same _ _ _) hjson

theorem verify_after_create_valid_witness :
    (verify_backup (create_full_backup engFresh fsFresh 8 none false "").2.1
        (create_full_backup engFresh fsFresh 8 none false "").2.2
        ("backup_full_" ++ toString (8 : Int))).1.isValid = true
    ∧ (verify_backup
        (create_incremental_backup engFresh fsFresh 8 none false "").2.1
        (create_incremental_backup engFresh fsFresh 8 none false "").2.2
        ("backup_full_" ++ toString (8 : Int))).1.isValid = true
    ∧ (verify_backup
        (create_differential_backup engFresh fsFresh 8 none false "").2.1
        (create_differential_backup engFresh fsFresh 8 none false "").2.2
        ("backup_full_" ++ toString (8 : Int))).1.isValid = true := by
  have h := verify_after_create_valid engFresh fsFresh 8 none false "" ("null")
    (by decide) (by decide) (by decide) (by decide)
  exact ⟨h.1, h.2.1 (by decide), h.2.2⟩

/-! ### Claim C7 -/

lemma get_backup_info_append_fresh (eng' : Engine) (r : BackupRecord)
    (bid : String) (hist : List BackupRecord)
    (hh : eng'.backup_history = hist ++ [r])
    (hbid : r.backup_id = bid)
    (hfresh : ∀ x ∈ hist, x.backup_id ≠ bid) :
    get_backup_info eng' bid = some r := by
  rw [get_backup_info, hh,
    find?_append_right _ _ _ (fun x hx => by simp [hfresh x hx])]
  simp [List.find?, hbid]

/-- The safety-copy name (ending `.bak`) never collides with an
artifact path (ending `.json` or `.json.gz`). -/
lemma safetyName_ne_artifactPath (dest : String) (t : Int) (dir : String)
    (now : Int) (compress : Bool) :
    safetyName dest t ≠ pathJoin dir (artifactName now compress) := by
  cases compress with
  | false =>
      have h : pathJoin dir (artifactName now false)
          = (dir ++ "/" ++ ("backup_full_" ++ toString now)) ++ ".json" := by
        simp [pathJoin, artifactName, String.append_assoc]
      rw [h]
      exact safetyName_ne_json dest t _
  | true =>
      have h : pathJoin dir (artifactName now true)
          = (dir ++ "/" ++ ("backup_full_" ++ toString now)) ++ ".json.gz" := by
        simp [pathJoin, artifactName, String.append_assoc]
      rw [h]
      exact safetyName_ne_jsongz dest t _

/-- C7: a successful `restore_backup` of a just-created backup writes
to the chosen destination (explicit or defaulted) exactly the source
content as read at backup-creation time, after decompression when the
artifact is compressed. -/
theorem restore_returns_backup_time_content (eng : Engine) (fs : FS)
    (now now2 : Int) (dataFile : Option String) (compress : Bool)
    (description : String) (s : String) (rp : Option String) (flag : Bool)
    (hs : fsGet fs (dataFile.getD eng.data_file) = some (FileData.text s))
    (hnz : compress = true → s.length ≠ 0)
    (hfresh : ∀ x ∈ eng.backup_history,
        x.backup_id ≠ "backup_full_" ++ toString now)
    (hok : (restore_backup
        (create_full_backup eng fs now dataFile compress description).2.1
        (create_full_backup eng fs now dataFile compress description).2.2
        now2 ("backup_full_" ++ toString now) rp flag).1.isErr = false) :
    restore_backup
        (create_full_backup eng fs now dataFile compress description).2.1
        (create_full_backup eng fs now dataFile compress description).2.2
        now2 ("backup_full_" ++ toString now) rp flag
      = (RestoreResult.ok ("backup_full_" ++ toString now)
           (rp.getD (dataFile.getD eng.data_file)),
         (create_full_backup eng fs now dataFile compress description).2.1,
         fsSet (preRestoreFS
             (create_full_backup eng fs now dataFile compress description).2.2
             now2 (rp.getD (dataFile.getD eng.data_file)) flag)
           (rp.getD (dataFile.getD eng.data_file)) (FileData.text s))
    ∧ fsGet (restore_backup
          (create_full_backup eng fs now dataFile compress description).2.1
          (create_full_backup eng fs now dataFile compress description).2.2
          now2 ("backup_full_" ++ toString now) rp flag).2.2
        (rp.getD (dataFile.getD eng.data_file))
      = some (FileData.text s) := by
  have hfull := create_full_text_eq eng fs now dataFile compress description s hs hnz
  have hinfo : get_backup_info
      (create_full_backup eng fs now dataFile compress description).2.1
      ("backup_full_" ++ toString now)
      = some (fullRecordOf eng now dataFile compress description s) := by
    rw [hfull]
    exact get_backup_info_append_fresh _ _ _ eng.backup_history rfl rfl hfresh
  have hsrc : (fullRecordOf eng now dataFile compress description s).source_file
      = dataFile.getD eng.data_file := rfl
  have hbf : (fullRecordOf eng now dataFile compress description s).backup_file
      = artifactName now compress := rfl
  have hcomp : (fullRecordOf eng now dataFile compress description s).compressed
      = compress := rfl
  have hart : fsGet
      (create_full_backup eng fs now dataFile compress description).2.2
      (pathJoin
        ((create_full_backup eng fs now dataFile compress description).2.1).backup_dir
        (artifactName now compress))
      = some (artifactData s compress) := by
    rw [hfull]
    exact fsGet_fsSet_same _ _ _
  have hart2 : fsGet
      (preRestoreFS
        (create_full_backup eng fs now dataFile compress description).2.2
        now2 (rp.getD (dataFile.getD eng.data_file)) flag)
      (pathJoin
        ((create_full_backup eng fs now dataFile compress description).2.1).backup_dir
        (artifactName now compress))
      = some (artifactData s compress) := by
    rw [fsGet_preRestoreFS _ _ _ _ _
      (Ne.symm (safetyName_ne_artifactPath
        (rp.getD (dataFile.getD eng.data_file)) now2 _ now compress))]
    exact hart
  have hread : readArtifact compress (artifactData s compress) = some s := by
    cases compress <;> rfl
  simp only [restore_backup, hinfo, hsrc, hbf, hcomp, hart, hart2, hread]
    at hok ⊢
  by_cases hj : jsonOk s = true
  · by_cases hdir : hasDirComponent (rp.getD (dataFile.getD eng.data_file)) = true
    · simp only [hj, hdir, if_true]
      exact ⟨trivial, fsGet_fsSet_same _ _ _⟩
    · simp [hj, hdir, RestoreResult.isErr] at hok
  · simp [hj, RestoreResult.isErr] at hok

theorem restore_returns_backup_time_content_witness :
    restore_backup (create_full_backup engFresh fsFresh 4 none false "").2.1
        (create_full_backup engFresh fsFresh 4 none false "").2.2
        7 ("backup_full_" ++ toString (4 : Int)) (some ("data/out.json")) true
      = (RestoreResult.ok ("backup_full_" ++ toString (4 : Int))
           ((some ("data/out.json")).getD (Option.getD none engFresh.data_file)),
         (create_full_backup engFresh fsFresh 4 none false "").2.1,
         fsSet (preRestoreFS
             (create_full_backup engFresh fsFresh 4 none false "").2.2
             7 ((some ("data/out.json")).getD (Option.getD none engFresh.data_file))
             true)
           ((some ("data/out.json")).getD (Option.getD none engFresh.data_file))
           (FileData.text ("null")))
    ∧ fsGet (restore_backup
          (create_full_backup engFresh fsFresh 4 none false "").2.1
          (create_full_backup engFresh fsFresh 4 none false "").2.2
          7 ("backup_full_" ++ toString (4 : Int)) (some ("data/out.json")) true).2.2
        ((some ("data/out.json")).getD (Option.getD none engFresh.data_file))
      = some (FileData.text ("null")) :=
  restore_returns_backup_time_content engFresh fsFresh 4 7 none false "" ("null")
    (some ("data/out.json")) true (by decide) (by decide) (by decide) (by decide)
